import Mathlib

/-!
Verification of the influencer-offers payout logic.

Shallow embedding of the `app` package (models, repositories, and
`OfferService`).  Python floats are modelled as rationals (`ℚ`); Python's
`None` becomes `Option.none`; a raised exception (`ValueError` /
`TypeError`) is modelled as `Except.error` or `Option.none` depending on
whether the surrounding code handles it.  The SQLAlchemy session is
modelled as an explicit in-memory `Store` threaded through the repository
functions.
-/

namespace App

-- Equality on `Except` is decidable componentwise; needed to evaluate
-- validator results on concrete inputs.
deriving instance DecidableEq for Except

/-- PayoutType from `app/models/offer.py`: `CPA`, `FIXED`, `CPA_FIXED`
(the spec calls the last one `CPA_AND_FIXED`). -/
inductive PayoutType where
  | CPA
  | FIXED
  | CPA_FIXED
deriving DecidableEq

/-- CategoryEnum from `app/models/offer.py`: the closed category
enumeration. -/
inductive CategoryEnum where
  | GAMING
  | TECH
  | HEALTH
  | NUTRITION
  | FASHION
  | FINANCE
deriving DecidableEq

/-- String value of each category member (`CategoryEnum.<X>.value`). -/
def CategoryEnum.value : CategoryEnum → String
  | .GAMING => "Gaming"
  | .TECH => "Tech"
  | .HEALTH => "Health"
  | .NUTRITION => "Nutrition"
  | .FASHION => "Fashion"
  | .FINANCE => "Finance"

/-- Python's `CategoryEnum(<string>)` constructor: returns the member with
that value, raising (modelled by `none`) on an unknown value. -/
def CategoryEnum.ofValue (s : String) : Option CategoryEnum :=
  if s = "Gaming" then some .GAMING
  else if s = "Tech" then some .TECH
  else if s = "Health" then some .HEALTH
  else if s = "Nutrition" then some .NUTRITION
  else if s = "Fashion" then some .FASHION
  else if s = "Finance" then some .FINANCE
  else none

/-- CountryOverride row from `app/models/offer.py`: `country_code` plus a
non-nullable `cpa_amount`. -/
structure CountryOverride where
  country_code : String
  cpa_amount : ℚ
deriving DecidableEq

/-- Base payout row from `app/models/offer.py` (`Payout`): type, nullable
amounts, and the owned list of country overrides. -/
structure Payout where
  payout_type : PayoutType
  cpa_amount : Option ℚ
  fixed_amount : Option ℚ
  country_overrides : List CountryOverride
deriving DecidableEq

/-- Offer row from `app/models/offer.py`; `categories` is stored as a
comma-separated string, and the base payout is the (mandatory, per spec
section 4.2) 1:1 related `Payout` row. -/
structure Offer where
  id : ℕ
  title : String
  description : String
  categories : String
  payout : Payout
deriving DecidableEq

/-- CustomPayout row from `app/models/offer.py`: ties an offer and an
influencer to an override payout configuration; carries no country
overrides. -/
structure CustomPayout where
  offer_id : ℕ
  influencer_id : ℕ
  payout_type : PayoutType
  cpa_amount : Option ℚ
  fixed_amount : Option ℚ
deriving DecidableEq

/-- Influencer row from `app/models/influencer.py`. -/
structure Influencer where
  id : ℕ
  name : String
  email : String
deriving DecidableEq

/-- InfluencerOfferPayoutInfo from `app/schemas/offer.py`: the label
(schema field `payout_type`), the display text and the numeric bounds
computed by the presenter. -/
structure InfluencerOfferPayoutInfo where
  payout_type : String
  display_text : String
  min_amount : ℚ
  max_amount : ℚ
deriving DecidableEq

/-- Two-decimal amount rendering, modelling the Python f-string
`f"{x:.2f}"` on rational amounts: the value is scaled to cents with
round-half-up and printed as `<int>.<2 digits>`.  Implemented with integer
operations on the numerator/denominator (so that concrete instances reduce
in the kernel): `cents = floor(q*100 + 1/2) = (200*num + den) fdiv (2*den)`. -/
def fmt2 (q : ℚ) : String :=
  let cents : Int := Int.fdiv (200 * q.num + q.den) (2 * q.den)
  let sign := if cents < 0 then "-" else ""
  let n := cents.natAbs
  let frac := n % 100
  sign ++ toString (n / 100) ++ "." ++ (if frac < 10 then "0" else "") ++ toString frac

/-- Python's `x is None or x <= 0` test used by the validator on an
optional amount. -/
def missing_or_nonpositive : Option ℚ → Bool
  | none => true
  | some a => a ≤ 0

/-- OfferService._validate_payout (`app/services/offer_service.py`
lines 241-260).  `ValueError` is modelled as `Except.error` carrying the
message. -/
def validate_payout (payout_type : PayoutType) (cpa_amount fixed_amount : Option ℚ) :
    Except String Unit :=
  match payout_type with
  | .CPA =>
    if missing_or_nonpositive cpa_amount then
      .error "CPA payout requires a valid cpa_amount"
    else if fixed_amount ≠ none then
      .error "CPA payout should not have fixed_amount"
    else .ok ()
  | .FIXED =>
    if missing_or_nonpositive fixed_amount then
      .error "Fixed payout requires a valid fixed_amount"
    else if cpa_amount ≠ none then
      .error "Fixed payout should not have cpa_amount"
    else .ok ()
  | .CPA_FIXED =>
    if missing_or_nonpositive cpa_amount then
      .error "CPA+Fixed payout requires a valid cpa_amount"
    else if missing_or_nonpositive fixed_amount then
      .error "CPA+Fixed payout requires a valid fixed_amount"
    else .ok ()

/-- OfferService._calculate_payout_info (`app/services/offer_service.py`
lines 173-239).  Python's truthiness test `if country_overrides:` is the
emptiness test on the list (branches reordered accordingly); a `None`
amount flowing into `min`, `+` or the `:.2f` format raises a `TypeError`
in Python and is modelled by `none`. -/
def calculate_payout_info (payout_type : PayoutType) (cpa_amount fixed_amount : Option ℚ)
    (country_overrides : List CountryOverride) : Option InfluencerOfferPayoutInfo :=
  match payout_type with
  | .FIXED =>
    match fixed_amount with
    | none => none
    | some f =>
      some { payout_type := "Fixed"
             display_text := "$" ++ fmt2 f ++ " Fixed"
             min_amount := f
             max_amount := f }
  | .CPA =>
    if country_overrides = [] then
      match cpa_amount with
      | none => none
      | some c =>
        some { payout_type := "CPA"
               display_text := "$" ++ fmt2 c ++ " CPA"
               min_amount := c
               max_amount := c }
    else
      match cpa_amount with
      | none => none
      | some c =>
        let override_amounts := country_overrides.map CountryOverride.cpa_amount
        let min_amount := override_amounts.foldl min c
        let max_amount := override_amounts.foldl max c
        let display_text :=
          if min_amount = max_amount then "$" ++ fmt2 min_amount ++ " CPA"
          else "$" ++ fmt2 min_amount ++ " - $" ++ fmt2 max_amount ++ " CPA"
        some { payout_type := "CPA"
               display_text := display_text
               min_amount := min_amount
               max_amount := max_amount }
  | .CPA_FIXED =>
    if country_overrides = [] then
      match cpa_amount, fixed_amount with
      | some c, some f =>
        some { payout_type := "CPA + Fixed"
               display_text := "$" ++ fmt2 c ++ " CPA + $" ++ fmt2 f ++ " Fixed"
               min_amount := c + f
               max_amount := c + f }
      | _, _ => none
    else
      match cpa_amount, fixed_amount with
      | some c, some f =>
        let cpa_amounts := country_overrides.map CountryOverride.cpa_amount
        let min_cpa := cpa_amounts.foldl min c
        let max_cpa := cpa_amounts.foldl max c
        let display_text :=
          if min_cpa = max_cpa then
            "$" ++ fmt2 min_cpa ++ " CPA + $" ++ fmt2 f ++ " Fixed"
          else
            "$" ++ fmt2 min_cpa ++ " - $" ++ fmt2 max_cpa ++ " CPA + $" ++ fmt2 f ++ " Fixed"
        some { payout_type := "CPA + Fixed"
               display_text := display_text
               min_amount := min_cpa + f
               max_amount := max_cpa + f }
      | _, _ => none

/-- In-memory model of the relational store (the SQLAlchemy session):
the three tables the claims touch. -/
structure Store where
  offers : List Offer
  influencers : List Influencer
  custom_payouts : List CustomPayout
deriving DecidableEq

/-- OfferRepository.get_by_id: first offer with the given id. -/
def offer_get_by_id (s : Store) (offer_id : ℕ) : Option Offer :=
  s.offers.find? (fun o => o.id == offer_id)

/-- InfluencerRepository.get_by_id: first influencer with the given id. -/
def influencer_get_by_id (s : Store) (influencer_id : ℕ) : Option Influencer :=
  s.influencers.find? (fun i => i.id == influencer_id)

/-- OfferRepository.get_custom_payout_for_influencer: first custom payout
row matching the `(offer_id, influencer_id)` pair. -/
def get_custom_payout_for_influencer (s : Store) (offer_id influencer_id : ℕ) :
    Option CustomPayout :=
  s.custom_payouts.find?
    (fun cp => cp.offer_id == offer_id && cp.influencer_id == influencer_id)

/-- Python `sep.join(pieces)` on character lists. -/
def pyJoin (sep : Char) : List (List Char) → List Char
  | [] => []
  | [p] => p
  | p :: ps => p ++ sep :: pyJoin sep ps

/-- Python `s.split(sep)` (single-character separator) on character lists:
always returns at least one piece; `split` of the empty string is `[[]]`. -/
def pySplit (sep : Char) : List Char → List (List Char)
  | [] => [[]]
  | c :: rest =>
    if c = sep then [] :: pySplit sep rest
    else
      match pySplit sep rest with
      | [] => [[c]]
      | p :: ps => (c :: p) :: ps

/-- Category encoding used by `OfferRepository.create`/`update`
(`app/repositories/offer_repository.py` line 17):
`",".join([cat.value for cat in categories])`. -/
def encode_categories (categories : List CategoryEnum) : String :=
  String.mk (pyJoin ',' (categories.map (fun cat => cat.value.toList)))

/-- Category decoding of `OfferService._convert_to_response` /
`_convert_to_influencer_response` (`app/services/offer_service.py`
lines 123 and 141): `[CategoryEnum(cat) for cat in offer.categories.split(",")]`,
where `CategoryEnum(...)` raises on an unknown value (modelled by `none`,
propagated through the comprehension). -/
def decode_pieces : List (List Char) → Option (List CategoryEnum)
  | [] => some []
  | cs :: rest =>
    match CategoryEnum.ofValue (String.mk cs), decode_pieces rest with
    | some cat, some cats => some (cat :: cats)
    | _, _ => none

/-- Full category decoding: split the stored string on commas and map each
piece through the `CategoryEnum` constructor. -/
def decode_categories (s : String) : Option (List CategoryEnum) :=
  decode_pieces (pySplit ',' s.toList)

/-- Payout-resolution part of `OfferService._convert_to_influencer_response`
(`app/services/offer_service.py` lines 143-161): a custom payout for the
`(offer, influencer)` pair is used exclusively, with an empty override
list; otherwise the base payout is presented with its country overrides. -/
def resolve_payout_info (s : Store) (offer : Offer) (influencer_id : ℕ) :
    Option InfluencerOfferPayoutInfo :=
  match get_custom_payout_for_influencer s offer.id influencer_id with
  | some custom_payout =>
    calculate_payout_info custom_payout.payout_type custom_payout.cpa_amount
      custom_payout.fixed_amount []
  | none =>
    calculate_payout_info offer.payout.payout_type offer.payout.cpa_amount
      offer.payout.fixed_amount offer.payout.country_overrides

/-- InfluencerOfferResponse from `app/schemas/offer.py` (without the
timestamps, which no claim mentions). -/
structure InfluencerOfferResponse where
  id : ℕ
  title : String
  description : String
  categories : List CategoryEnum
  payout_info : InfluencerOfferPayoutInfo
deriving DecidableEq

/-- OfferService._convert_to_influencer_response
(`app/services/offer_service.py` lines 135-171): parse the categories and
resolve-and-present the payout; `none` models an exception escaping the
conversion. -/
def convert_to_influencer_response (s : Store) (offer : Offer) (influencer_id : ℕ) :
    Option InfluencerOfferResponse :=
  match decode_categories offer.categories, resolve_payout_info s offer influencer_id with
  | some categories, some payout_info =>
    some { id := offer.id
           title := offer.title
           description := offer.description
           categories := categories
           payout_info := payout_info }
  | _, _ => none

/-- Conversion of a list of offers, propagating a raised exception
(the loop of `list_offers_for_influencer`, lines 110-113). -/
def convert_all (s : Store) (influencer_id : ℕ) :
    List Offer → Option (List InfluencerOfferResponse)
  | [] => some []
  | o :: rest =>
    match convert_to_influencer_response s o influencer_id, convert_all s influencer_id rest with
    | some r, some rs => some (r :: rs)
    | _, _ => none

/-- Case-insensitive substring test modelling SQL `ILIKE '%title%'`
(`OfferRepository.get_by_title` / `count_by_title`). -/
def ilike_contains (hay needle : String) : Bool :=
  let h := hay.toList.map Char.toLower
  let n := needle.toList.map Char.toLower
  (List.range (h.length + 1)).any (fun i => n.isPrefixOf (h.drop i))

/-- OfferRepository.get_all with pagination (`offset(skip).limit(limit)`). -/
def offers_get_all (s : Store) (skip limit : ℕ) : List Offer :=
  (s.offers.drop skip).take limit

/-- OfferRepository.get_by_title with pagination. -/
def offers_get_by_title (s : Store) (title : String) (skip limit : ℕ) : List Offer :=
  ((s.offers.filter (fun o => ilike_contains o.title title)).drop skip).take limit

/-- OfferRepository.count_all. -/
def offers_count_all (s : Store) : ℕ := s.offers.length

/-- OfferRepository.count_by_title. -/
def offers_count_by_title (s : Store) (title : String) : ℕ :=
  (s.offers.filter (fun o => ilike_contains o.title title)).length

/-- InfluencerOfferListResponse from `app/schemas/offer.py`. -/
structure InfluencerOfferListResponse where
  offers : List InfluencerOfferResponse
  total : ℕ
deriving DecidableEq

/-- OfferService.list_offers_for_influencer (`app/services/offer_service.py`
lines 86-118).  A missing influencer yields an empty response (not an
error); Python's `if title:` treats both `None` and the empty string as
no-filter.  `none` models an exception escaping the per-offer conversion. -/
def list_offers_for_influencer (s : Store) (influencer_id : ℕ) (title : Option String)
    (skip limit : ℕ) : Option InfluencerOfferListResponse :=
  match influencer_get_by_id s influencer_id with
  | none => some { offers := [], total := 0 }
  | some _ =>
    let offers : List Offer :=
      match title with
      | some t =>
        if t ≠ "" then offers_get_by_title s t skip limit
        else offers_get_all s skip limit
      | none => offers_get_all s skip limit
    let total : ℕ :=
      match title with
      | some t => if t ≠ "" then offers_count_by_title s t else offers_count_all s
      | none => offers_count_all s
    match convert_all s influencer_id offers with
    | none => none
    | some items => some { offers := items, total := total }

/-- PayoutUpdate from `app/schemas/payout.py`: every field optional. -/
structure PayoutUpdate where
  payout_type : Option PayoutType
  cpa_amount : Option ℚ
  fixed_amount : Option ℚ
  country_overrides : Option (List CountryOverride)
deriving DecidableEq

/-- OfferUpdate from `app/schemas/offer.py`: every field optional. -/
structure OfferUpdate where
  title : Option String
  description : Option String
  categories : Option (List CategoryEnum)
  payout : Option PayoutUpdate
deriving DecidableEq

/-- Python's `new if new is not None else old` fallback used both by the
service merge (lines 72-73) and the repository field updates. -/
def fallback {α : Type} (new old : Option α) : Option α :=
  match new with
  | some v => some v
  | none => old

/-- Field application of `OfferRepository.update`
(`app/repositories/offer_repository.py` lines 80-111): supplied fields
replace stored ones, the payout sub-object is merged field by field, and a
supplied country-override list is a full replace. -/
def apply_offer_update (o : Offer) (u : OfferUpdate) : Offer :=
  let base :=
    { o with
      title := u.title.getD o.title
      description := u.description.getD o.description
      categories :=
        match u.categories with
        | some cats => encode_categories cats
        | none => o.categories }
  match u.payout with
  | none => base
  | some pu =>
    { base with
      payout :=
        { payout_type := pu.payout_type.getD o.payout.payout_type
          cpa_amount := fallback pu.cpa_amount o.payout.cpa_amount
          fixed_amount := fallback pu.fixed_amount o.payout.fixed_amount
          country_overrides := pu.country_overrides.getD o.payout.country_overrides } }

/-- OfferRepository.update (`app/repositories/offer_repository.py`
lines 74-115): fetch, apply the field updates, commit.  The result pairs
the Python return value with the post-state of the store. -/
def repo_update_offer (s : Store) (offer_id : ℕ) (u : OfferUpdate) :
    Option Offer × Store :=
  match offer_get_by_id s offer_id with
  | none => (none, s)
  | some o =>
    (some (apply_offer_update o u),
     { s with offers :=
         (s.offers.map (fun x => if x.id == offer_id then apply_offer_update o u else x)) })

/-- OfferService.update_offer (`app/services/offer_service.py`
lines 62-80).  When a payout sub-object is supplied the service first
merges the supplied fields with the stored ones (`payout_type` via Python
`or`, which on the always-truthy enum equals the `is not None` fallback;
the amounts via `is not None` fallbacks) and validates the merged values
before calling the repository.  The result pairs the Python outcome
(`Except.error` = `ValueError` raised, `.ok none` = offer not found,
`.ok (some o)` = updated offer) with the post-state of the store. -/
def update_offer (s : Store) (offer_id : ℕ) (u : OfferUpdate) :
    Except String (Option Offer) × Store :=
  match u.payout with
  | some pu =>
    match offer_get_by_id s offer_id with
    | none => (.ok none, s)
    | some existing =>
      match validate_payout (pu.payout_type.getD existing.payout.payout_type)
          (fallback pu.cpa_amount existing.payout.cpa_amount)
          (fallback pu.fixed_amount existing.payout.fixed_amount) with
      | .error e => (.error e, s)
      | .ok _ =>
        (.ok (repo_update_offer s offer_id u).1, (repo_update_offer s offer_id u).2)
  | none =>
    (.ok (repo_update_offer s offer_id u).1, (repo_update_offer s offer_id u).2)

/-- Candidate amounts named by the testable-properties spec sentence
behind C6, written from the spec's words (not from the code): the union of
the base `cpa_amount` and the override `cpa_amount`s, each increased by
`fixed_amount` when the payout type is `CPA_AND_FIXED`. -/
def claimed_candidate_amounts (payout_type : PayoutType) (cpa_amount fixed_amount : Option ℚ)
    (country_overrides : List CountryOverride) : List ℚ :=
  let base := cpa_amount.toList ++ country_overrides.map CountryOverride.cpa_amount
  if payout_type = .CPA_FIXED then base.map (fun a => a + fixed_amount.getD 0) else base

/-! Helper lemmas: Python's `min`/`max` over a non-empty list, modelled as a
fold over the tail with the head as accumulator, is a lower/upper bound and
an element of the list. -/

lemma foldl_min_mem (l : List ℚ) (a : ℚ) : l.foldl min a ∈ a :: l := by
  induction l generalizing a with
  | nil => simp
  | cons b t ih =>
    simp only [List.foldl_cons]
    rcases List.mem_cons.mp (ih (min a b)) with h | h
    · rcases min_choice a b with hc | hc
      · rw [h, hc]; exact List.mem_cons_self _ _
      · rw [h, hc]; exact List.mem_cons_of_mem _ (List.mem_cons_self _ _)
    · exact List.mem_cons_of_mem _ (List.mem_cons_of_mem _ h)

lemma foldl_min_le (l : List ℚ) (a : ℚ) : ∀ x ∈ a :: l, l.foldl min a ≤ x := by
  induction l generalizing a with
  | nil =>
    intro x hx
    rw [List.mem_singleton] at hx
    simp [hx]
  | cons b t ih =>
    intro x hx
    simp only [List.foldl_cons]
    rcases List.mem_cons.mp hx with hxa | hx'
    · rw [hxa]
      exact le_trans (ih (min a b) _ (List.mem_cons_self _ _)) (min_le_left a b)
    · rcases List.mem_cons.mp hx' with hxb | hx''
      · rw [hxb]
        exact le_trans (ih (min a b) _ (List.mem_cons_self _ _)) (min_le_right a b)
      · exact ih (min a b) x (List.mem_cons_of_mem _ hx'')

lemma foldl_max_mem (l : List ℚ) (a : ℚ) : l.foldl max a ∈ a :: l := by
  induction l generalizing a with
  | nil => simp
  | cons b t ih =>
    simp only [List.foldl_cons]
    rcases List.mem_cons.mp (ih (max a b)) with h | h
    · rcases max_choice a b with hc | hc
      · rw [h, hc]; exact List.mem_cons_self _ _
      · rw [h, hc]; exact List.mem_cons_of_mem _ (List.mem_cons_self _ _)
    · exact List.mem_cons_of_mem _ (List.mem_cons_of_mem _ h)

lemma le_foldl_max (l : List ℚ) (a : ℚ) : ∀ x ∈ a :: l, x ≤ l.foldl max a := by
  induction l generalizing a with
  | nil =>
    intro x hx
    rw [List.mem_singleton] at hx
    simp [hx]
  | cons b t ih =>
    intro x hx
    simp only [List.foldl_cons]
    rcases List.mem_cons.mp hx with hxa | hx'
    · rw [hxa]
      exact le_trans (le_max_left a b) (ih (max a b) _ (List.mem_cons_self _ _))
    · rcases List.mem_cons.mp hx' with hxb | hx''
      · rw [hxb]
        exact le_trans (le_max_right a b) (ih (max a b) _ (List.mem_cons_self _ _))
      · exact ih (max a b) x (List.mem_cons_of_mem _ hx'')

/-! Helper lemmas: the comma join/split pair round-trips on a non-empty
list of comma-free pieces. -/

lemma pySplit_ne_nil (sep : Char) (l : List Char) : pySplit sep l ≠ [] := by
  induction l with
  | nil => simp [pySplit]
  | cons c rest ih =>
    by_cases hc : c = sep
    · simp [pySplit, hc]
    · simp only [pySplit, if_neg hc]
      cases h : pySplit sep rest with
      | nil => simp
      | cons p ps => simp

lemma pySplit_append (sep : Char) (p l : List Char) (hp : sep ∉ p)
    (ps0 : List Char) (pss : List (List Char)) (h : pySplit sep l = ps0 :: pss) :
    pySplit sep (p ++ l) = (p ++ ps0) :: pss := by
  induction p with
  | nil => simpa using h
  | cons c cs ih =>
    have hc : c ≠ sep := fun hcs => hp (hcs ▸ List.mem_cons_self c cs)
    have hcs : sep ∉ cs := fun hmem => hp (List.mem_cons_of_mem _ hmem)
    have hrec := ih hcs
    rw [List.cons_append]
    simp only [pySplit, if_neg hc]
    rw [hrec]
    rfl

lemma pySplit_pyJoin (sep : Char) (ps : List (List Char)) (hne : ps ≠ [])
    (hfree : ∀ p ∈ ps, sep ∉ p) : pySplit sep (pyJoin sep ps) = ps := by
  induction ps with
  | nil => exact absurd rfl hne
  | cons p rest ih =>
    cases rest with
    | nil =>
      have hp : sep ∉ p := hfree p (List.mem_cons_self _ _)
      have : pyJoin sep [p] = p ++ [] := by simp [pyJoin]
      rw [this, pySplit_append sep p [] hp [] [] rfl]
      simp
    | cons q qs =>
      have hp : sep ∉ p := hfree p (List.mem_cons_self _ _)
      have hrest : ∀ x ∈ q :: qs, sep ∉ x := fun x hx => hfree x (List.mem_cons_of_mem _ hx)
      have hjoin : pyJoin sep (p :: q :: qs) = p ++ sep :: pyJoin sep (q :: qs) := rfl
      have hsplit : pySplit sep (sep :: pyJoin sep (q :: qs)) = [] :: (q :: qs) := by
        have hstep : pySplit sep (sep :: pyJoin sep (q :: qs)) =
            [] :: pySplit sep (pyJoin sep (q :: qs)) := by
          simp [pySplit]
        rw [hstep, ih (by simp) hrest]
      rw [hjoin, pySplit_append sep p _ hp [] (q :: qs) hsplit]
      simp

lemma ofValue_value (c : CategoryEnum) :
    CategoryEnum.ofValue (String.mk c.value.toList) = some c := by
  cases c <;> rfl

lemma value_comma_free (c : CategoryEnum) : ',' ∉ c.value.toList := by
  cases c <;> decide

lemma decode_pieces_map_value (l : List CategoryEnum) :
    decode_pieces (l.map (fun c => c.value.toList)) = some l := by
  induction l with
  | nil => rfl
  | cons c cs ih =>
    simp only [List.map_cons, decode_pieces]
    rw [ofValue_value, ih]

/-! Helper lemma: looking an offer up by id after the in-place update of
the row with that id yields the updated row. -/

lemma find?_map_update (offers : List Offer) (oid : ℕ) (o o' : Offer)
    (h : offers.find? (fun x => x.id == oid) = some o) (hid : o'.id = o.id) :
    (offers.map (fun x => if x.id == oid then o' else x)).find?
      (fun x => x.id == oid) = some o' := by
  induction offers with
  | nil => simp [List.find?] at h
  | cons a rest ih =>
    simp only [List.map_cons]
    by_cases ha : (a.id == oid) = true
    · have haa : a = o := by
        rw [List.find?_cons_of_pos (p := fun (x : Offer) => x.id == oid) rest ha] at h
        exact Option.some.inj h
      subst haa
      rw [if_pos ha]
      have ho' : (o'.id == oid) = true := by rw [hid]; exact ha
      exact List.find?_cons_of_pos (p := fun (x : Offer) => x.id == oid) _ ho'
    · rw [List.find?_cons_of_neg (p := fun (x : Offer) => x.id == oid) rest ha] at h
      rw [if_neg ha, List.find?_cons_of_neg (p := fun (x : Offer) => x.id == oid) _ ha]
      exact ih h

/-! Claim theorems. -/

/-- C1: for every effective payout of type CPA with a non-empty override
list, the presenter labels the result "CPA" and returns a `min_amount` and
`max_amount` that are respectively the minimum and the maximum over the
base `cpa_amount` together with every override's `cpa_amount` (the base
amount is always one of the candidates), rendering "$min CPA" when the two
bounds coincide and "$min - $max CPA" otherwise, with exactly two decimal
places. -/
theorem cpa_overrides_payout_info (c : ℚ) (fx : Option ℚ) (ovs : List CountryOverride)
    (h : ovs ≠ []) :
    ∃ info, calculate_payout_info .CPA (some c) fx ovs = some info ∧
      info.payout_type = "CPA" ∧
      info.min_amount ∈ c :: ovs.map CountryOverride.cpa_amount ∧
      info.max_amount ∈ c :: ovs.map CountryOverride.cpa_amount ∧
      (∀ a ∈ c :: ovs.map CountryOverride.cpa_amount,
        info.min_amount ≤ a ∧ a ≤ info.max_amount) ∧
      info.display_text =
        (if info.min_amount = info.max_amount then "$" ++ fmt2 info.min_amount ++ " CPA"
         else "$" ++ fmt2 info.min_amount ++ " - $" ++ fmt2 info.max_amount ++ " CPA") := by
  simp only [calculate_payout_info, if_neg h]
  exact ⟨_, rfl, rfl, foldl_min_mem _ _, foldl_max_mem _ _,
    fun a ha => ⟨foldl_min_le _ _ a ha, le_foldl_max _ _ a ha⟩, rfl⟩

/-- Witness for C1, the spec's scenario: base CPA $20 with overrides DE $30
and US $25 presents as "$20.00 - $30.00 CPA" with bounds 20 and 30. -/
theorem cpa_overrides_payout_info_witness :
    calculate_payout_info .CPA (some 20) none [⟨"DE", 30⟩, ⟨"US", 25⟩] =
      some ⟨"CPA", "$20.00 - $30.00 CPA", 20, 30⟩ ∧
    (∃ info, calculate_payout_info .CPA (some 20) none [⟨"DE", 30⟩, ⟨"US", 25⟩] = some info ∧
      info.payout_type = "CPA" ∧
      info.min_amount ∈ (20 : ℚ) :: ([⟨"DE", 30⟩, ⟨"US", 25⟩] : List CountryOverride).map
        CountryOverride.cpa_amount ∧
      info.max_amount ∈ (20 : ℚ) :: ([⟨"DE", 30⟩, ⟨"US", 25⟩] : List CountryOverride).map
        CountryOverride.cpa_amount ∧
      (∀ a ∈ (20 : ℚ) :: ([⟨"DE", 30⟩, ⟨"US", 25⟩] : List CountryOverride).map
        CountryOverride.cpa_amount, info.min_amount ≤ a ∧ a ≤ info.max_amount) ∧
      info.display_text =
        (if info.min_amount = info.max_amount then "$" ++ fmt2 info.min_amount ++ " CPA"
         else "$" ++ fmt2 info.min_amount ++ " - $" ++ fmt2 info.max_amount ++ " CPA")) :=
  ⟨by decide, cpa_overrides_payout_info 20 none [⟨"DE", 30⟩, ⟨"US", 25⟩] (by decide)⟩

/-- C2: for every effective payout of type CPA_AND_FIXED with a non-empty
override list, the presenter labels the result "CPA + Fixed", computes the
minimum and maximum CPA over the base `cpa_amount` together with all
override amounts, returns those bounds each increased by `fixed_amount`,
and renders "$min_cpa CPA + $fixed Fixed" when the CPA bounds coincide and
"$min_cpa - $max_cpa CPA + $fixed Fixed" otherwise. -/
theorem cpa_fixed_overrides_payout_info (c f : ℚ) (ovs : List CountryOverride)
    (h : ovs ≠ []) :
    ∃ info mn mx, calculate_payout_info .CPA_FIXED (some c) (some f) ovs = some info ∧
      info.payout_type = "CPA + Fixed" ∧
      mn ∈ c :: ovs.map CountryOverride.cpa_amount ∧
      mx ∈ c :: ovs.map CountryOverride.cpa_amount ∧
      (∀ a ∈ c :: ovs.map CountryOverride.cpa_amount, mn ≤ a ∧ a ≤ mx) ∧
      info.min_amount = mn + f ∧
      info.max_amount = mx + f ∧
      info.display_text =
        (if mn = mx then "$" ++ fmt2 mn ++ " CPA + $" ++ fmt2 f ++ " Fixed"
         else "$" ++ fmt2 mn ++ " - $" ++ fmt2 mx ++ " CPA + $" ++ fmt2 f ++ " Fixed") := by
  simp only [calculate_payout_info, if_neg h]
  exact ⟨_, _, _, rfl, rfl, foldl_min_mem _ _, foldl_max_mem _ _,
    fun a ha => ⟨foldl_min_le _ _ a ha, le_foldl_max _ _ a ha⟩, rfl, rfl, rfl⟩

/-- Witness for C2, the spec's scenario: CPA_AND_FIXED base cpa $15,
fixed $500, override GB $20 presents as
"$15.00 - $20.00 CPA + $500.00 Fixed" with bounds 515 and 520. -/
theorem cpa_fixed_overrides_payout_info_witness :
    calculate_payout_info .CPA_FIXED (some 15) (some 500) [⟨"GB", 20⟩] =
      some ⟨"CPA + Fixed", "$15.00 - $20.00 CPA + $500.00 Fixed", 15 + 500, 20 + 500⟩ ∧
    (∃ info mn mx, calculate_payout_info .CPA_FIXED (some 15) (some 500) [⟨"GB", 20⟩] =
        some info ∧
      info.payout_type = "CPA + Fixed" ∧
      mn ∈ (15 : ℚ) :: ([⟨"GB", 20⟩] : List CountryOverride).map CountryOverride.cpa_amount ∧
      mx ∈ (15 : ℚ) :: ([⟨"GB", 20⟩] : List CountryOverride).map CountryOverride.cpa_amount ∧
      (∀ a ∈ (15 : ℚ) :: ([⟨"GB", 20⟩] : List CountryOverride).map CountryOverride.cpa_amount,
        mn ≤ a ∧ a ≤ mx) ∧
      info.min_amount = mn + 500 ∧
      info.max_amount = mx + 500 ∧
      info.display_text =
        (if mn = mx then "$" ++ fmt2 mn ++ " CPA + $" ++ fmt2 (500 : ℚ) ++ " Fixed"
         else "$" ++ fmt2 mn ++ " - $" ++ fmt2 mx ++ " CPA + $" ++ fmt2 (500 : ℚ) ++ " Fixed")) :=
  ⟨by rfl, cpa_fixed_overrides_payout_info 15 500 [⟨"GB", 20⟩] (by decide)⟩

/-- C9: the presenter ignores the country-override list entirely for FIXED
payouts: whatever the override list and the (unused) cpa_amount, the result
is label "Fixed", display text "$fixed Fixed", and
min_amount = max_amount = fixed_amount. -/
theorem fixed_payout_ignores_overrides (cpa : Option ℚ) (f : ℚ)
    (ovs : List CountryOverride) :
    calculate_payout_info .FIXED cpa (some f) ovs =
      some { payout_type := "Fixed"
             display_text := "$" ++ fmt2 f ++ " Fixed"
             min_amount := f
             max_amount := f } := rfl

/-- C3: the resolver uses a custom payout exclusively when one exists for
the (offer, influencer) pair — with an empty override list, whatever the
custom payout's type — and otherwise uses the offer's base payout with its
full override list. -/
theorem custom_payout_resolution (s : Store) (offer : Offer) (influencer_id : ℕ) :
    (∀ cp, get_custom_payout_for_influencer s offer.id influencer_id = some cp →
      resolve_payout_info s offer influencer_id =
        calculate_payout_info cp.payout_type cp.cpa_amount cp.fixed_amount []) ∧
    (get_custom_payout_for_influencer s offer.id influencer_id = none →
      resolve_payout_info s offer influencer_id =
        calculate_payout_info offer.payout.payout_type offer.payout.cpa_amount
          offer.payout.fixed_amount offer.payout.country_overrides) := by
  constructor
  · intro cp hcp
    simp only [resolve_payout_info, hcp]
  · intro hnone
    simp only [resolve_payout_info, hnone]

/-- Example offer with a CPA base payout and two country overrides. -/
def offer_with_overrides : Offer :=
  ⟨1, "Summer Promo", "Promote the product", "Gaming,Tech",
   ⟨.CPA, some 20, none, [⟨"DE", 30⟩, ⟨"US", 25⟩]⟩⟩

/-- Example store: Alice (influencer 1) has a custom FIXED $2000 payout on
the offer; Bob (influencer 2) has none. -/
def store_with_custom : Store :=
  ⟨[offer_with_overrides],
   [⟨1, "Alice", "alice@example.com"⟩, ⟨2, "Bob", "bob@example.com"⟩],
   [⟨1, 1, .FIXED, none, some 2000⟩]⟩

/-- Witness for C3: Alice's custom FIXED payout suppresses the offer's
country overrides; Bob falls back to the base payout with its overrides. -/
theorem custom_payout_resolution_witness :
    resolve_payout_info store_with_custom offer_with_overrides 1 =
      calculate_payout_info .FIXED none (some 2000) [] ∧
    resolve_payout_info store_with_custom offer_with_overrides 2 =
      calculate_payout_info .CPA (some 20) none [⟨"DE", 30⟩, ⟨"US", 25⟩] :=
  ⟨(custom_payout_resolution store_with_custom offer_with_overrides 1).1
      ⟨1, 1, .FIXED, none, some 2000⟩ (by decide),
   (custom_payout_resolution store_with_custom offer_with_overrides 2).2 (by decide)⟩

/-- C4: the validator fails exactly when the amount fields are inconsistent
with the payout type — CPA with missing or non-positive cpa_amount or with
a present fixed_amount; FIXED with missing or non-positive fixed_amount or
with a present cpa_amount; CPA_AND_FIXED with either amount missing or
non-positive — and succeeds in every other case over the three types. -/
theorem validate_payout_error_iff (pt : PayoutType) (cpa fx : Option ℚ) :
    (∃ e, validate_payout pt cpa fx = .error e) ↔
      (pt = .CPA ∧ (cpa = none ∨ (∃ c, cpa = some c ∧ c ≤ 0) ∨ fx ≠ none)) ∨
      (pt = .FIXED ∧ (fx = none ∨ (∃ f, fx = some f ∧ f ≤ 0) ∨ cpa ≠ none)) ∨
      (pt = .CPA_FIXED ∧
        ((cpa = none ∨ ∃ c, cpa = some c ∧ c ≤ 0) ∨
         (fx = none ∨ ∃ f, fx = some f ∧ f ≤ 0))) := by
  cases pt with
  | CPA =>
    cases cpa with
    | none => simp [validate_payout, missing_or_nonpositive]
    | some c =>
      cases fx with
      | none => by_cases hc : c ≤ 0 <;> simp [validate_payout, missing_or_nonpositive, hc]
      | some f => by_cases hc : c ≤ 0 <;> simp [validate_payout, missing_or_nonpositive, hc]
  | FIXED =>
    cases fx with
    | none => simp [validate_payout, missing_or_nonpositive]
    | some f =>
      cases cpa with
      | none => by_cases hf : f ≤ 0 <;> simp [validate_payout, missing_or_nonpositive, hf]
      | some c => by_cases hf : f ≤ 0 <;> simp [validate_payout, missing_or_nonpositive, hf]
  | CPA_FIXED =>
    cases cpa with
    | none => simp [validate_payout, missing_or_nonpositive]
    | some c =>
      cases fx with
      | none => by_cases hc : c ≤ 0 <;> simp [validate_payout, missing_or_nonpositive, hc]
      | some f =>
        by_cases hc : c ≤ 0 <;> by_cases hf : f ≤ 0 <;>
          simp [validate_payout, missing_or_nonpositive, hc, hf]

/-- Witness for C4: a CPA payout with no cpa_amount is rejected, while a
CPA payout with only a positive cpa_amount passes. -/
theorem validate_payout_error_iff_witness :
    (∃ e, validate_payout .CPA none none = .error e) ∧
    validate_payout .CPA (some 20) none = .ok () :=
  ⟨(validate_payout_error_iff .CPA none none).mpr (Or.inl ⟨rfl, Or.inl rfl⟩),
   by decide⟩

/-- Witness for C9, the spec's scenario: a FIXED $2000 payout with an
override row still presents as "$2000.00 Fixed" with bounds 2000. -/
theorem fixed_payout_ignores_overrides_witness :
    calculate_payout_info .FIXED none (some 2000) [⟨"DE", 30⟩] =
      some { payout_type := "Fixed"
             display_text := "$2000.00 Fixed"
             min_amount := 2000
             max_amount := 2000 } := by
  rw [fixed_payout_ignores_overrides]
  decide

/-- C6 counterexample: a well-formed FIXED payout may carry country
override rows (the validator does not inspect overrides), and the presenter
then returns min_amount = max_amount = fixed_amount, which is not drawn
from the union of the base cpa_amount (null for a well-formed FIXED payout)
and the override cpa_amounts. -/
theorem overrides_bounds_claim_counterexample :
    validate_payout .FIXED none (some 5) = .ok () ∧
    calculate_payout_info .FIXED none (some 5) [⟨"DE", 3⟩] =
      some ⟨"Fixed", "$5.00 Fixed", 5, 5⟩ ∧
    (5 : ℚ) ∉ claimed_candidate_amounts .FIXED none (some 5) [⟨"DE", 3⟩] := by
  decide

/-- C6 (amended): for every well-formed effective payout of type CPA or
CPA_AND_FIXED with a non-empty override list, the presenter's bounds
satisfy min_amount ≤ max_amount and both are drawn from the union of the
base cpa_amount and the override cpa_amounts (each increased by
fixed_amount for CPA_AND_FIXED).  FIXED payouts are excluded: there the
presenter ignores overrides and returns fixed_amount for both bounds. -/
theorem overrides_bounds_amended (pt : PayoutType) (cpa fx : Option ℚ)
    (ovs : List CountryOverride) (hpt : pt ≠ .FIXED)
    (hval : validate_payout pt cpa fx = .ok ()) (hovs : ovs ≠ []) :
    ∃ info, calculate_payout_info pt cpa fx ovs = some info ∧
      info.min_amount ≤ info.max_amount ∧
      info.min_amount ∈ claimed_candidate_amounts pt cpa fx ovs ∧
      info.max_amount ∈ claimed_candidate_amounts pt cpa fx ovs := by
  cases pt with
  | FIXED => exact absurd rfl hpt
  | CPA =>
    cases cpa with
    | none => simp [validate_payout, missing_or_nonpositive] at hval
    | some c =>
      simp only [calculate_payout_info, if_neg hovs]
      refine ⟨_, rfl, ?_, ?_, ?_⟩
      · exact foldl_min_le _ _ _ (foldl_max_mem _ _)
      · simpa [claimed_candidate_amounts] using
          foldl_min_mem (ovs.map CountryOverride.cpa_amount) c
      · simpa [claimed_candidate_amounts] using
          foldl_max_mem (ovs.map CountryOverride.cpa_amount) c
  | CPA_FIXED =>
    cases cpa with
    | none => simp [validate_payout, missing_or_nonpositive] at hval
    | some c =>
      cases fx with
      | none =>
        by_cases hc : c ≤ 0 <;> simp [validate_payout, missing_or_nonpositive, hc] at hval
      | some f =>
        simp only [calculate_payout_info, if_neg hovs]
        refine ⟨_, rfl, ?_, ?_, ?_⟩
        · exact add_le_add_right (foldl_min_le _ _ _ (foldl_max_mem _ _)) f
        · simpa [claimed_candidate_amounts] using
            List.mem_map_of_mem (fun a => a + f)
              (foldl_min_mem (ovs.map CountryOverride.cpa_amount) c)
        · simpa [claimed_candidate_amounts] using
            List.mem_map_of_mem (fun a => a + f)
              (foldl_max_mem (ovs.map CountryOverride.cpa_amount) c)

/-- Witness for the amended C6 at a CPA payout with one override. -/
theorem overrides_bounds_amended_witness :
    validate_payout .CPA (some 20) none = .ok () ∧
    (∃ info, calculate_payout_info .CPA (some 20) none [⟨"DE", 30⟩] = some info ∧
      info.min_amount ≤ info.max_amount ∧
      info.min_amount ∈ claimed_candidate_amounts .CPA (some 20) none [⟨"DE", 30⟩] ∧
      info.max_amount ∈ claimed_candidate_amounts .CPA (some 20) none [⟨"DE", 30⟩]) :=
  ⟨by decide,
   overrides_bounds_amended .CPA (some 20) none [⟨"DE", 30⟩] (by decide) (by decide)
     (by decide)⟩

/-- C8: encoding a non-empty list of distinct categories as a
comma-separated string (as offer creation stores it) and decoding that
string back (as offer read-back parses it) recovers the same list. -/
theorem categories_roundtrip (l : List CategoryEnum) (h1 : l ≠ []) (h2 : l.Nodup) :
    decode_categories (encode_categories l) = some l := by
  unfold decode_categories encode_categories
  have hfree : ∀ p ∈ l.map (fun c => c.value.toList), ',' ∉ p := by
    intro p hp
    obtain ⟨c, _, rfl⟩ := List.mem_map.mp hp
    exact value_comma_free c
  have hne : l.map (fun c => c.value.toList) ≠ [] := by
    simpa using h1
  have htl : (String.mk (pyJoin ',' (l.map fun c => c.value.toList))).toList =
      pyJoin ',' (l.map fun c => c.value.toList) := rfl
  rw [htl, pySplit_pyJoin ',' _ hne hfree, decode_pieces_map_value]

/-- Witness for C8: the spec's example categories Gaming and Tech encode to
"Gaming,Tech" and decode back to themselves. -/
theorem categories_roundtrip_witness :
    ([CategoryEnum.GAMING, CategoryEnum.TECH] : List CategoryEnum) ≠ [] ∧
    ([CategoryEnum.GAMING, CategoryEnum.TECH] : List CategoryEnum).Nodup ∧
    encode_categories [CategoryEnum.GAMING, CategoryEnum.TECH] = "Gaming,Tech" ∧
    decode_categories (encode_categories [CategoryEnum.GAMING, CategoryEnum.TECH]) =
      some [CategoryEnum.GAMING, CategoryEnum.TECH] :=
  ⟨by decide, by decide, by decide,
   categories_roundtrip [CategoryEnum.GAMING, CategoryEnum.TECH] (by decide) (by decide)⟩

/-- C5: when an update supplies a payout sub-object and succeeds, the
stored payout carries the merge of the supplied and the previously stored
fields, which passed the validator — so a successful partial update can
never leave the payout inconsistent with its payout_type. -/
theorem update_validates_merged_payout (s : Store) (offer_id : ℕ) (u : OfferUpdate)
    (pu : PayoutUpdate) (hpu : u.payout = some pu) (o' : Offer) (s' : Store)
    (hok : update_offer s offer_id u = (.ok (some o'), s')) :
    validate_payout o'.payout.payout_type o'.payout.cpa_amount o'.payout.fixed_amount =
      .ok () ∧
    offer_get_by_id s' offer_id = some o' := by
  cases hfind : offer_get_by_id s offer_id with
  | none =>
    simp only [update_offer, hpu, hfind] at hok
    simp at hok
  | some existing =>
    cases hval : validate_payout (pu.payout_type.getD existing.payout.payout_type)
        (fallback pu.cpa_amount existing.payout.cpa_amount)
        (fallback pu.fixed_amount existing.payout.fixed_amount) with
    | error e =>
      simp only [update_offer, hpu, hfind, hval] at hok
      simp at hok
    | ok uu =>
      cases uu
      simp only [update_offer, hpu, hfind, hval, repo_update_offer] at hok
      simp only [Prod.mk.injEq, Except.ok.injEq, Option.some.injEq] at hok
      obtain ⟨ho, hs⟩ := hok
      subst ho
      have hid : (apply_offer_update existing u).id = existing.id := by
        simp [apply_offer_update, hpu]
      have hpay : (apply_offer_update existing u).payout =
          ⟨pu.payout_type.getD existing.payout.payout_type,
           fallback pu.cpa_amount existing.payout.cpa_amount,
           fallback pu.fixed_amount existing.payout.fixed_amount,
           pu.country_overrides.getD existing.payout.country_overrides⟩ := by
        simp [apply_offer_update, hpu]
      constructor
      · rw [hpay]
        exact hval
      · rw [← hs]
        unfold offer_get_by_id at hfind ⊢
        exact find?_map_update s.offers offer_id existing _ hfind hid

/-- Base offer used by the update witnesses: CPA $20, no overrides. -/
def cpa_offer : Offer := ⟨1, "Summer Promo", "Promote the product", "Gaming", ⟨.CPA, some 20, none, []⟩⟩

/-- Store holding only `cpa_offer`. -/
def cpa_store : Store := ⟨[cpa_offer], [], []⟩

/-- Witness for C5: updating only the cpa_amount of a CPA offer succeeds
and the stored payout still satisfies the validator. -/
theorem update_validates_merged_payout_witness :
    validate_payout
      (Offer.payout (apply_offer_update cpa_offer ⟨none, none, none, some ⟨none, some 40, none, none⟩⟩)).payout_type
      (Offer.payout (apply_offer_update cpa_offer ⟨none, none, none, some ⟨none, some 40, none, none⟩⟩)).cpa_amount
      (Offer.payout (apply_offer_update cpa_offer ⟨none, none, none, some ⟨none, some 40, none, none⟩⟩)).fixed_amount = .ok () ∧
    offer_get_by_id
      (update_offer cpa_store 1 ⟨none, none, none, some ⟨none, some 40, none, none⟩⟩).2 1 =
      some (apply_offer_update cpa_offer ⟨none, none, none, some ⟨none, some 40, none, none⟩⟩) :=
  update_validates_merged_payout cpa_store 1
    ⟨none, none, none, some ⟨none, some 40, none, none⟩⟩
    ⟨none, some 40, none, none⟩ rfl
    (apply_offer_update cpa_offer ⟨none, none, none, some ⟨none, some 40, none, none⟩⟩)
    (update_offer cpa_store 1 ⟨none, none, none, some ⟨none, some 40, none, none⟩⟩).2
    (by decide)

/-- C10: an update whose supplied payout fails validation on the merged
values returns exactly that validation error and leaves the store as it
was — the error is raised before the repository update runs, so no stored
offer, payout, or override row changes. -/
theorem update_error_leaves_store (s : Store) (offer_id : ℕ) (u : OfferUpdate)
    (pu : PayoutUpdate) (existing : Offer) (e : String)
    (hpu : u.payout = some pu)
    (hfind : offer_get_by_id s offer_id = some existing)
    (hval : validate_payout (pu.payout_type.getD existing.payout.payout_type)
        (fallback pu.cpa_amount existing.payout.cpa_amount)
        (fallback pu.fixed_amount existing.payout.fixed_amount) = .error e) :
    update_offer s offer_id u = (.error e, s) := by
  simp only [update_offer, hpu, hfind, hval]

/-- Witness for C10: adding a fixed_amount to a CPA offer is rejected and
the store is unchanged. -/
theorem update_error_leaves_store_witness :
    update_offer cpa_store 1 ⟨none, none, none, some ⟨none, none, some 5, none⟩⟩ =
      (.error "CPA payout should not have fixed_amount", cpa_store) :=
  update_error_leaves_store cpa_store 1
    ⟨none, none, none, some ⟨none, none, some 5, none⟩⟩
    ⟨none, none, some 5, none⟩ cpa_offer
    "CPA payout should not have fixed_amount" rfl (by decide) (by decide)

/-- C7: listing offers for a non-existent influencer returns an empty
result with total 0 and no error, regardless of the title filter and the
pagination arguments; for an existing influencer it returns the
title-filtered, paginated offers converted with their resolved payout
info, together with the matching total count. -/
theorem list_offers_influencer_cases (s : Store) (influencer_id : ℕ)
    (title : Option String) (skip limit : ℕ) :
    (influencer_get_by_id s influencer_id = none →
      list_offers_for_influencer s influencer_id title skip limit =
        some { offers := [], total := 0 }) ∧
    (influencer_get_by_id s influencer_id ≠ none →
      ∀ items, convert_all s influencer_id
          (match title with
           | some t =>
             if t ≠ "" then offers_get_by_title s t skip limit
             else offers_get_all s skip limit
           | none => offers_get_all s skip limit) = some items →
        list_offers_for_influencer s influencer_id title skip limit =
          some { offers := items
                 total :=
                   match title with
                   | some t => if t ≠ "" then offers_count_by_title s t
                               else offers_count_all s
                   | none => offers_count_all s }) := by
  constructor
  · intro h
    simp only [list_offers_for_influencer, h]
  · intro h items hconv
    cases hinf : influencer_get_by_id s influencer_id with
    | none => exact absurd hinf h
    | some inf =>
      simp only [list_offers_for_influencer, hinf]
      rw [hconv]

/-- Store with one FIXED offer and one influencer, used by the C7 witness. -/
def fixed_store : Store :=
  ⟨[⟨1, "Summer Promo", "Promote the product", "Gaming", ⟨.FIXED, none, some 100, []⟩⟩],
   [⟨1, "Alice", "alice@example.com"⟩], []⟩

/-- Witness for C7: influencer 2 does not exist and gets an empty result;
influencer 1 exists and gets the converted offer with total 1. -/
theorem list_offers_influencer_cases_witness :
    list_offers_for_influencer fixed_store 2 none 0 100 =
      some { offers := [], total := 0 } ∧
    list_offers_for_influencer fixed_store 1 none 0 100 =
      some { offers := [⟨1, "Summer Promo", "Promote the product", [CategoryEnum.GAMING],
                        ⟨"Fixed", "$100.00 Fixed", 100, 100⟩⟩]
             total := 1 } :=
  ⟨(list_offers_influencer_cases fixed_store 2 none 0 100).1 (by decide),
   (list_offers_influencer_cases fixed_store 1 none 0 100).2 (by decide)
     [⟨1, "Summer Promo", "Promote the product", [CategoryEnum.GAMING],
       ⟨"Fixed", "$100.00 Fixed", 100, 100⟩⟩]
     (by decide)⟩

end App
